import Mathlib

/-!
Verification of the streaming delta-detection engine of
`python-three-sensor.py`.

The script reads sensor samples from a serial port and, per channel
(photoresistor / sound), keeps a history of values, computes a rolling
baseline with `calculate_baseline`, and fires a debounced trigger when the
newest value exceeds the baseline by more than a threshold and the cooldown
(the literal `2.0` in the source) has elapsed since the last trigger.

The embedding below models the pure engine: sample values and timestamps are
rationals, the per-channel processing block of `read_arduino_data`
(lines 128-140 for the photoresistor, 143-155 for the sound sensor) becomes
`processChannel`, and the two-channel body of one loop iteration becomes
`readStep`.  The window size, threshold and cooldown appear as parameters;
the script instantiates them with `10` (the default of `calculate_baseline`),
the `photo_threshold`/`sound_threshold` arguments, and the literal `2.0`.
-/

namespace SensorTrigger

/-- Python's `values[-n:]` for `n ≥ 1`: the suffix of the `n` most recent
values (the whole list when fewer than `n` are present). -/
def lastN (n : ℕ) (l : List ℚ) : List ℚ := l.drop (l.length - n)

/-- `calculate_baseline(values, window_size=10)`:
`sum(values)/len(values)` (or `0` on an empty list) when fewer than
`window_size` values are present, else `sum(values[-window_size:]) / window_size`. -/
def calculate_baseline (values : List ℚ) (window_size : ℕ) : ℚ :=
  if values.length < window_size then
    if values.isEmpty then 0 else values.sum / (values.length : ℚ)
  else
    (lastN window_size values).sum / (window_size : ℚ)

/-- The baseline computation with its degenerate empty-history case made
explicit: `none` exactly where the Python source needs its
`if values else 0` guard. -/
def calculate_baselineChecked (values : List ℚ) (window_size : ℕ) : Option ℚ :=
  if values.isEmpty then none else some (calculate_baseline values window_size)

/-- The externally observable outcome of ingesting one sample on one channel:
either nothing, or a debounced trigger carrying the sample value, the
baseline and the increase (delta) over it. -/
inductive Decision where
  | noAction : Decision
  | fire (value baseline delta : ℚ) : Decision
deriving DecidableEq

/-- Per-channel mutable state of `read_arduino_data`: the history list
(`photo_history` / `sound_history`) and the time of the last trigger
(`last_stress_trigger` / `last_sound_trigger`). -/
structure ChannelState where
  history : List ℚ
  lastTrigger : ℚ
deriving DecidableEq

/-- The state of a channel when it is first seen: empty history and
`last_*_trigger = 0` (the source initialises both trigger times to the
integer `0`, lines 111-112). -/
def initChannel : ChannelState := { history := [], lastTrigger := 0 }

/-- One per-channel processing block of the read loop (lines 128-140 /
143-155): append the value to the history; if the history now holds more
than 3 entries, compute the baseline and the increase, and fire — updating
the last-trigger time — when the increase strictly exceeds the threshold and
strictly more than the cooldown has elapsed since the last trigger. -/
def processChannel (w : ℕ) (threshold cooldown : ℚ) (s : ChannelState)
    (value t : ℚ) : ChannelState × Decision :=
  let history := s.history ++ [value]
  if 3 < history.length then
    let baseline := calculate_baseline history w
    let increase := value - baseline
    if threshold < increase ∧ cooldown < t - s.lastTrigger then
      ({ history := history, lastTrigger := t }, Decision.fire value baseline increase)
    else
      ({ history := history, lastTrigger := s.lastTrigger }, Decision.noAction)
  else
    ({ history := history, lastTrigger := s.lastTrigger }, Decision.noAction)

/-- Feed a channel a sequence of `(value, timestamp)` samples, returning the
final channel state and the decision of every ingest in order. -/
def runChannel (w : ℕ) (threshold cooldown : ℚ) :
    ChannelState → List (ℚ × ℚ) → ChannelState × List Decision
  | s, [] => (s, [])
  | s, (v, t) :: rest =>
    let p := processChannel w threshold cooldown s v t
    let r := runChannel w threshold cooldown p.1 rest
    (r.1, p.2 :: r.2)

/-- Whether a decision is a trigger. -/
def isFire : Decision → Bool
  | Decision.noAction => false
  | Decision.fire _ _ _ => true

/-- The timestamps at which a sequence of ingests fires the channel's
trigger, in order. -/
def fireTimes (w : ℕ) (threshold cooldown : ℚ) :
    ChannelState → List (ℚ × ℚ) → List ℚ
  | _, [] => []
  | s, (v, t) :: rest =>
    let p := processChannel w threshold cooldown s v t
    if isFire p.2 then t :: fireTimes w threshold cooldown p.1 rest
    else fireTimes w threshold cooldown p.1 rest

/-- The full per-iteration state of `read_arduino_data`: both channels'
histories and last-trigger times. -/
structure SystemState where
  photoHistory : List ℚ
  soundHistory : List ℚ
  lastStressTrigger : ℚ
  lastSoundTrigger : ℚ
deriving DecidableEq

/-- The state right after line 116: empty histories, both trigger times 0. -/
def initSystem : SystemState :=
  { photoHistory := [], soundHistory := [], lastStressTrigger := 0, lastSoundTrigger := 0 }

/-- One iteration of the body of the read loop (lines 124-155) after parsing:
`extract_sensor_values` may yield a photoresistor value, a sound value, both
or neither; each present value is processed on its own channel with the same
`current_time`, window size 10 and cooldown 2.0.  Returns the new state and
each channel's decision (`none` when the channel received no value). -/
def readStep (photoThreshold soundThreshold : ℚ) (s : SystemState)
    (photoValue soundValue : Option ℚ) (t : ℚ) :
    SystemState × (Option Decision × Option Decision) :=
  let photoRes :=
    match photoValue with
    | none => (ChannelState.mk s.photoHistory s.lastStressTrigger, none)
    | some v =>
      let r := processChannel 10 photoThreshold 2
        (ChannelState.mk s.photoHistory s.lastStressTrigger) v t
      (r.1, some r.2)
  let soundRes :=
    match soundValue with
    | none => (ChannelState.mk s.soundHistory s.lastSoundTrigger, none)
    | some v =>
      let r := processChannel 10 soundThreshold 2
        (ChannelState.mk s.soundHistory s.lastSoundTrigger) v t
      (r.1, some r.2)
  ({ photoHistory := photoRes.1.history,
     soundHistory := soundRes.1.history,
     lastStressTrigger := photoRes.1.lastTrigger,
     lastSoundTrigger := soundRes.1.lastTrigger },
   (photoRes.2, soundRes.2))

/-- Modelled from the spec (section 4.1 `ingest`): the same per-channel step,
but with the spec's bounded History — the value is appended and the oldest
entries are evicted (FIFO) so that at most `w` values are retained; the
arming guard and the baseline are evaluated on the bounded History.  Used
only to compare the source's unbounded-history code against the spec's
bounded-window description. -/
def boundedProcessChannel (w : ℕ) (threshold cooldown : ℚ) (s : ChannelState)
    (value t : ℚ) : ChannelState × Decision :=
  let history := lastN w (s.history ++ [value])
  if 3 < history.length then
    let baseline := calculate_baseline history w
    let increase := value - baseline
    if threshold < increase ∧ cooldown < t - s.lastTrigger then
      ({ history := history, lastTrigger := t }, Decision.fire value baseline increase)
    else
      ({ history := history, lastTrigger := s.lastTrigger }, Decision.noAction)
  else
    ({ history := history, lastTrigger := s.lastTrigger }, Decision.noAction)

/-- Modelled from the spec: `runChannel` for the bounded-History ingest. -/
def boundedRunChannel (w : ℕ) (threshold cooldown : ℚ) :
    ChannelState → List (ℚ × ℚ) → ChannelState × List Decision
  | s, [] => (s, [])
  | s, (v, t) :: rest =>
    let p := boundedProcessChannel w threshold cooldown s v t
    let r := boundedRunChannel w threshold cooldown p.1 rest
    (r.1, p.2 :: r.2)

/-! ### Lemmas about the recent-window suffix `lastN` -/

theorem length_lastN (n : ℕ) (l : List ℚ) : (lastN n l).length = min n l.length := by
  simp [lastN, List.length_drop]; omega

theorem lastN_of_length_le {n : ℕ} {l : List ℚ} (h : l.length ≤ n) : lastN n l = l := by
  simp [lastN, Nat.sub_eq_zero_of_le h]

theorem lastN_lastN (n : ℕ) (l : List ℚ) : lastN n (lastN n l) = lastN n l :=
  lastN_of_length_le (by rw [length_lastN]; omega)

theorem lastN_append_lastN (n : ℕ) (l : List ℚ) (v : ℚ) :
    lastN n (lastN n l ++ [v]) = lastN n (l ++ [v]) := by
  rcases Nat.eq_zero_or_pos n with rfl | hn
  · simp [lastN]
  rcases le_or_lt l.length n with h | h
  · rw [lastN_of_length_le h]
  · have hlen : (lastN n l).length = n := by rw [length_lastN]; omega
    simp only [lastN] at hlen ⊢
    rw [List.length_append, List.length_append, hlen]
    have e1 : n + [v].length - n = 1 := by simp
    have e2 : l.length + [v].length - n = l.length + 1 - n := by simp
    rw [e1, e2,
        List.drop_append_of_le_length (by omega),
        List.drop_append_of_le_length (by omega),
        List.drop_drop]
    congr 2
    omega

/-- Only the most recent `w` values influence the baseline: the source's
baseline over the full (unbounded) history coincides with the baseline over
the `w`-bounded suffix. -/
theorem calculate_baseline_lastN (values : List ℚ) (w : ℕ) :
    calculate_baseline (lastN w values) w = calculate_baseline values w := by
  rcases lt_or_le values.length w with h | h
  · rw [lastN_of_length_le h.le]
  · have hlen : (lastN w values).length = w := by rw [length_lastN]; omega
    rw [calculate_baseline, calculate_baseline, hlen]
    simp only [lt_irrefl, if_false, if_neg (Nat.not_lt.mpr h), lastN_lastN]

/-! ### One-step characterisation of `processChannel` -/

/-- Complete case analysis of one processing step: either the arming guard,
the strict threshold comparison and the strict cooldown comparison all hold
and the step fires (recording the trigger time), or one of them fails and
the step does nothing except record the value. -/
theorem processChannel_spec (w : ℕ) (th c : ℚ) (s : ChannelState) (v t : ℚ) :
    (3 < (s.history ++ [v]).length ∧
       th < v - calculate_baseline (s.history ++ [v]) w ∧
       c < t - s.lastTrigger ∧
       processChannel w th c s v t =
         ({ history := s.history ++ [v], lastTrigger := t },
           Decision.fire v (calculate_baseline (s.history ++ [v]) w)
             (v - calculate_baseline (s.history ++ [v]) w))) ∨
    (¬ (3 < (s.history ++ [v]).length ∧
          th < v - calculate_baseline (s.history ++ [v]) w ∧
          c < t - s.lastTrigger) ∧
       processChannel w th c s v t =
         ({ history := s.history ++ [v], lastTrigger := s.lastTrigger },
           Decision.noAction)) := by
  simp only [processChannel]
  split_ifs with h1 h2
  · exact Or.inl ⟨h1, h2.1, h2.2, rfl⟩
  · exact Or.inr ⟨by tauto, rfl⟩
  · exact Or.inr ⟨by tauto, rfl⟩

/-- C3: for a non-empty history the baseline is the arithmetic mean of all
samples when fewer than `w` are present, else the mean of the most recent
`w`; concretely, history `[10, 10, 10, 10]` plus the new sample `25` gives
baseline `13` and delta `25 - 13 = 12`. -/
theorem baseline_is_windowed_mean (values : List ℚ) (w : ℕ) (hne : values ≠ []) :
    (values.length < w → calculate_baseline values w = values.sum / (values.length : ℚ)) ∧
    (w ≤ values.length → calculate_baseline values w = (lastN w values).sum / (w : ℚ)) ∧
    calculate_baseline ([10, 10, 10, 10] ++ [25]) 10 = 13 ∧
    (25 : ℚ) - calculate_baseline ([10, 10, 10, 10] ++ [25]) 10 = 12 := by
  refine ⟨?_, ?_, by norm_num [calculate_baseline, lastN], by norm_num [calculate_baseline, lastN]⟩
  · intro h
    rw [calculate_baseline, if_pos h, if_neg]
    simpa using hne
  · intro h
    rw [calculate_baseline, if_neg (Nat.not_lt.mpr h)]

/-- Witness for `baseline_is_windowed_mean` at `values = [1]`, `w = 10`. -/
theorem baseline_is_windowed_mean_witness :
    (([1] : List ℚ).length < 10 →
      calculate_baseline [1] 10 = ([1] : List ℚ).sum / (([1] : List ℚ).length : ℚ)) ∧
    (10 ≤ ([1] : List ℚ).length →
      calculate_baseline [1] 10 = (lastN 10 [1]).sum / (10 : ℚ)) ∧
    calculate_baseline ([10, 10, 10, 10] ++ [25]) 10 = 13 ∧
    (25 : ℚ) - calculate_baseline ([10, 10, 10, 10] ++ [25]) 10 = 12 :=
  baseline_is_windowed_mean [1] 10 (by decide)

/-- C6: for an armed channel with the cooldown satisfied, the threshold
comparison is strict — a delta exactly equal to the threshold yields
`noAction`, while any strictly larger delta fires. -/
theorem threshold_strict (th c : ℚ) (s : ChannelState) (v t : ℚ)
    (harmed : 3 < (s.history ++ [v]).length)
    (hcool : c < t - s.lastTrigger) :
    (v - calculate_baseline (s.history ++ [v]) 10 = th →
      (processChannel 10 th c s v t).2 = Decision.noAction) ∧
    (th < v - calculate_baseline (s.history ++ [v]) 10 →
      (processChannel 10 th c s v t).2 =
        Decision.fire v (calculate_baseline (s.history ++ [v]) 10)
          (v - calculate_baseline (s.history ++ [v]) 10)) := by
  constructor
  · intro heq
    rcases processChannel_spec 10 th c s v t with ⟨_, h2, _, hp⟩ | ⟨_, hp⟩
    · rw [heq] at h2
      exact absurd h2 (lt_irrefl th)
    · rw [hp]
  · intro hlt
    rcases processChannel_spec 10 th c s v t with ⟨_, _, _, hp⟩ | ⟨h1, hp⟩
    · rw [hp]
    · exact absurd ⟨harmed, hlt, hcool⟩ h1

/-- Witness for `threshold_strict` at the armed state `⟨[0,0,0], 0⟩` with
`v = 100`, `t = 3`, `th = 75`, `c = 2` (the delta is exactly `75`). -/
theorem threshold_strict_witness :
    ((100 : ℚ) - calculate_baseline (([0, 0, 0] : List ℚ) ++ [100]) 10 = 75 →
      (processChannel 10 75 2 ⟨[0, 0, 0], 0⟩ 100 3).2 = Decision.noAction) ∧
    ((75 : ℚ) < 100 - calculate_baseline (([0, 0, 0] : List ℚ) ++ [100]) 10 →
      (processChannel 10 75 2 ⟨[0, 0, 0], 0⟩ 100 3).2 =
        Decision.fire 100 (calculate_baseline (([0, 0, 0] : List ℚ) ++ [100]) 10)
          (100 - calculate_baseline (([0, 0, 0] : List ℚ) ++ [100]) 10)) :=
  threshold_strict 75 2 ⟨[0, 0, 0], 0⟩ 100 3 (by decide) (by norm_num)

/-- C9: the arming guard under which `processChannel` evaluates the baseline
forces a non-empty history, so the baseline computation is total there — the
checked variant returns `some`, and the degenerate empty-history `0` branch
of `calculate_baseline` is not taken. -/
theorem arming_guard_baseline_total (s : ChannelState) (v : ℚ)
    (h : 3 < (s.history ++ [v]).length) :
    s.history ++ [v] ≠ [] ∧
    calculate_baselineChecked (s.history ++ [v]) 10 =
      some (calculate_baseline (s.history ++ [v]) 10) ∧
    calculate_baseline (s.history ++ [v]) 10 =
      (if (s.history ++ [v]).length < 10 then
        (s.history ++ [v]).sum / (((s.history ++ [v]).length : ℚ))
      else (lastN 10 (s.history ++ [v])).sum / (10 : ℚ)) := by
  have hne : s.history ++ [v] ≠ [] := by simp
  refine ⟨hne, ?_, ?_⟩
  · rw [calculate_baselineChecked, if_neg]
    simp
  · rw [calculate_baseline]
    split_ifs with h1 h2
    · simp at h2
    · rfl
    · rfl

/-- Witness for `arming_guard_baseline_total` at history `[1,2,3]`, value `4`. -/
theorem arming_guard_baseline_total_witness :
    (([1, 2, 3] : List ℚ) ++ [4] ≠ [] ∧
     calculate_baselineChecked (([1, 2, 3] : List ℚ) ++ [4]) 10 =
       some (calculate_baseline (([1, 2, 3] : List ℚ) ++ [4]) 10) ∧
     calculate_baseline (([1, 2, 3] : List ℚ) ++ [4]) 10 =
       (if (([1, 2, 3] : List ℚ) ++ [4]).length < 10 then
         (([1, 2, 3] : List ℚ) ++ [4]).sum / (((([1, 2, 3] : List ℚ) ++ [4]).length : ℚ))
       else (lastN 10 (([1, 2, 3] : List ℚ) ++ [4])).sum / (10 : ℚ))) :=
  arming_guard_baseline_total ⟨[1, 2, 3], 0⟩ 4 (by decide)

/-- During warm-up every decision is `noAction`: as long as the history has
not outgrown 3 entries, each ingest appends its value and does nothing else. -/
theorem runChannel_warmup (w : ℕ) (th c : ℚ) :
    ∀ (inputs : List (ℚ × ℚ)) (s : ChannelState),
      s.history.length + inputs.length ≤ 3 →
      ∀ d ∈ (runChannel w th c s inputs).2, d = Decision.noAction
  | [], _, _ => by simp [runChannel]
  | (v, t) :: rest, s, h => by
    rcases processChannel_spec w th c s v t with ⟨h1, _, _, _⟩ | ⟨_, hp⟩
    · simp only [List.length_append, List.length_singleton] at h1
      simp only [List.length_cons] at h
      omega
    · intro d hd
      have hlen : (s.history ++ [v]).length + rest.length ≤ 3 := by
        simp only [List.length_append, List.length_singleton]
        simp only [List.length_cons] at h
        omega
      have ih := runChannel_warmup w th c rest
        { history := s.history ++ [v], lastTrigger := s.lastTrigger } hlen
      simp only [runChannel, hp, List.mem_cons] at hd
      rcases hd with hd | hd
      · exact hd
      · exact ih d hd

/-- C4: the first `min_history_before_arming = 3` ingests on a channel never
fire — whenever the history after appending holds at most 3 values the
decision is `noAction`, yet the value is still recorded — and every decision
of a run of at most 3 ingests from the initial state is `noAction`. -/
theorem warmup_never_fires (th c : ℚ) (s : ChannelState) (v t : ℚ)
    (inputs : List (ℚ × ℚ))
    (hlen : (s.history ++ [v]).length ≤ 3) (hin : inputs.length ≤ 3) :
    (processChannel 10 th c s v t).2 = Decision.noAction ∧
    (processChannel 10 th c s v t).1.history = s.history ++ [v] ∧
    ∀ d ∈ (runChannel 10 th c initChannel inputs).2, d = Decision.noAction := by
  refine ⟨?_, ?_, runChannel_warmup 10 th c inputs initChannel (by simpa [initChannel] using hin)⟩
  · rcases processChannel_spec 10 th c s v t with ⟨h1, _, _, _⟩ | ⟨_, hp⟩
    · omega
    · rw [hp]
  · rcases processChannel_spec 10 th c s v t with ⟨_, _, _, hp⟩ | ⟨_, hp⟩ <;> rw [hp]

/-- Witness for `warmup_never_fires`: an enormous first sample on a fresh
channel is recorded but does not fire, and a 3-ingest run with huge values
yields no decision other than `noAction`. -/
theorem warmup_never_fires_witness :
    (processChannel 10 15 2 initChannel 1000000 0).2 = Decision.noAction ∧
    (processChannel 10 15 2 initChannel 1000000 0).1.history = initChannel.history ++ [1000000] ∧
    ∀ d ∈ (runChannel 10 15 2 initChannel
        [(1000000, 0), (2000000, 1), (3000000, 2)]).2, d = Decision.noAction :=
  warmup_never_fires 15 2 initChannel 1000000 0
    [(1000000, 0), (2000000, 1), (3000000, 2)] (by decide) (by decide)

/-- C8: processing a sample on the photoresistor channel leaves the sound
channel's history, baseline and trigger time unchanged, and conversely. -/
theorem channel_independence (pt st : ℚ) (s : SystemState) (pv sv : Option ℚ) (t : ℚ) :
    ((readStep pt st s pv none t).1.soundHistory = s.soundHistory ∧
     (readStep pt st s pv none t).1.lastSoundTrigger = s.lastSoundTrigger ∧
     calculate_baseline (readStep pt st s pv none t).1.soundHistory 10 =
       calculate_baseline s.soundHistory 10) ∧
    ((readStep pt st s none sv t).1.photoHistory = s.photoHistory ∧
     (readStep pt st s none sv t).1.lastStressTrigger = s.lastStressTrigger ∧
     calculate_baseline (readStep pt st s none sv t).1.photoHistory 10 =
       calculate_baseline s.photoHistory 10) := by
  constructor
  · cases pv <;> simp [readStep]
  · cases sv <;> simp [readStep]

/-- The debouncing invariant: starting from any channel state, every
recorded fire time exceeds the stored last-trigger time by strictly more
than the cooldown, and the fire times are pairwise separated by strictly
more than the cooldown. -/
theorem fireTimes_invariant (w : ℕ) (th c : ℚ) (hc : 0 ≤ c) :
    ∀ (inputs : List (ℚ × ℚ)) (s : ChannelState),
      (∀ u ∈ fireTimes w th c s inputs, c < u - s.lastTrigger) ∧
      List.Pairwise (fun a b => c < b - a) (fireTimes w th c s inputs)
  | [], _ => by simp [fireTimes]
  | (v, t) :: rest, s => by
    rcases processChannel_spec w th c s v t with ⟨_, _, h3, hp⟩ | ⟨_, hp⟩
    · -- the step fires at time `t`; the tail continues from `lastTrigger = t`
      obtain ⟨ih1, ih2⟩ := fireTimes_invariant w th c hc rest
        { history := s.history ++ [v], lastTrigger := t }
      have hft : fireTimes w th c s ((v, t) :: rest) =
          t :: fireTimes w th c { history := s.history ++ [v], lastTrigger := t } rest := by
        simp [fireTimes, hp, isFire]
      rw [hft]
      constructor
      · intro u hu
        rcases List.mem_cons.mp hu with rfl | hu
        · exact h3
        · have := ih1 u hu
          have : c < u - t := this
          linarith
      · exact List.pairwise_cons.mpr ⟨fun u hu => ih1 u hu, ih2⟩
    · -- no fire: the last-trigger time is unchanged
      obtain ⟨ih1, ih2⟩ := fireTimes_invariant w th c hc rest
        { history := s.history ++ [v], lastTrigger := s.lastTrigger }
      have hft : fireTimes w th c s ((v, t) :: rest) =
          fireTimes w th c { history := s.history ++ [v], lastTrigger := s.lastTrigger } rest := by
        simp [fireTimes, hp, isFire]
      rw [hft]
      exact ⟨fun u hu => ih1 u hu, ih2⟩

/-- C1: with a non-negative cooldown, any two fire times of one channel are
separated by strictly more than the cooldown (in particular, by at least
the default cooldown `2.0`), so at most one fire occurs per cooldown
interval; and the comparison is strict — an ingest whose elapsed time since
the last trigger is exactly the cooldown never fires. -/
theorem cooldown_enforced (th c : ℚ) (inputs : List (ℚ × ℚ))
    (s : ChannelState) (v t : ℚ) (hc : 0 ≤ c)
    (helapsed : t - s.lastTrigger = c) :
    List.Pairwise (fun a b => c < b - a) (fireTimes 10 th c initChannel inputs) ∧
    (processChannel 10 th c s v t).2 = Decision.noAction := by
  constructor
  · exact (fireTimes_invariant 10 th c hc inputs initChannel).2
  · rcases processChannel_spec 10 th c s v t with ⟨_, _, h3, _⟩ | ⟨_, hp⟩
    · rw [helapsed] at h3
      exact absurd h3 (lt_irrefl c)
    · rw [hp]

/-- Witness for `cooldown_enforced`: cooldown `2`, a two-ingest trace, and an
armed channel whose elapsed time since the last trigger is exactly `2`. -/
theorem cooldown_enforced_witness :
    List.Pairwise (fun a b => (2 : ℚ) < b - a)
      (fireTimes 10 15 2 initChannel [(0, 0), (100, 5)]) ∧
    (processChannel 10 15 2 ⟨[0, 0, 0], 3⟩ 100 5).2 = Decision.noAction :=
  cooldown_enforced 15 2 [(0, 0), (100, 5)] ⟨[0, 0, 0], 3⟩ 100 5
    (by norm_num) (by norm_num)

/-- C5 counterexample: the source initialises `last_stress_trigger` to `0`,
not to "never"/−∞; a fresh channel that is armed and has never fired, fed a
threshold-exceeding delta at the small timestamp `1 ≤ cooldown`, does not
fire (the run `[(0,0),(0,0),(0,0),(100,1)]` yields only `noAction`, although
the fourth delta is `75 > 15`). -/
theorem trigger_init_counterexample :
    initChannel.lastTrigger = 0 ∧
    3 < ((([0, 0, 0] : List ℚ)) ++ [100]).length ∧
    (15 : ℚ) < 100 - calculate_baseline ((([0, 0, 0] : List ℚ)) ++ [100]) 10 ∧
    (processChannel 10 15 2 ⟨[0, 0, 0], 0⟩ 100 1).2 = Decision.noAction ∧
    (runChannel 10 15 2 initChannel [(0, 0), (0, 0), (0, 0), (100, 1)]).2 =
      List.replicate 4 Decision.noAction := by
  refine ⟨rfl, by decide, ?_, ?_, ?_⟩
  · norm_num [calculate_baseline, lastN]
  · norm_num [processChannel, calculate_baseline, lastN]
  · norm_num [runChannel, processChannel, calculate_baseline, lastN, initChannel,
      List.replicate]

/-- C5 (amended): `last_trigger_time` starts at `0` and is mutated only when
the trigger fires; an armed channel that has never fired (last trigger still
`0`) fires on a threshold-exceeding delta exactly when its timestamp
strictly exceeds the cooldown. -/
theorem trigger_state_initial_zero (w : ℕ) (th c : ℚ) (s s2 : ChannelState)
    (v t v2 t2 : ℚ)
    (hna : (processChannel w th c s v t).2 = Decision.noAction)
    (hinit : s2.lastTrigger = 0)
    (harmed : 3 < (s2.history ++ [v2]).length)
    (hth : th < v2 - calculate_baseline (s2.history ++ [v2]) w)
    (ht : c < t2) :
    initChannel.lastTrigger = 0 ∧
    (processChannel w th c s v t).1.lastTrigger = s.lastTrigger ∧
    isFire (processChannel w th c s2 v2 t2).2 = true := by
  refine ⟨rfl, ?_, ?_⟩
  · rcases processChannel_spec w th c s v t with ⟨_, _, _, hp⟩ | ⟨_, hp⟩
    · rw [hp] at hna
      exact absurd hna (by simp)
    · rw [hp]
  · rcases processChannel_spec w th c s2 v2 t2 with ⟨_, _, _, hp⟩ | ⟨h1, hp⟩
    · rw [hp]
      rfl
    · refine absurd ⟨harmed, hth, ?_⟩ h1
      rw [hinit]
      simpa using ht

/-- Witness for `trigger_state_initial_zero`: a warm-up ingest does not move
the trigger time, and a never-fired armed channel fires at timestamp `3 > 2`. -/
theorem trigger_state_initial_zero_witness :
    initChannel.lastTrigger = 0 ∧
    (processChannel 10 15 2 initChannel 1 0).1.lastTrigger = initChannel.lastTrigger ∧
    isFire (processChannel 10 15 2 ⟨[0, 0, 0], 0⟩ 100 3).2 = true :=
  trigger_state_initial_zero 10 15 2 initChannel ⟨[0, 0, 0], 0⟩ 1 0 100 3
    (by norm_num [processChannel, calculate_baseline, lastN, initChannel])
    rfl (by decide) (by norm_num [calculate_baseline, lastN]) (by norm_num)

/-- The history after a run is the initial history extended with every
ingested value in arrival order: nothing is ever evicted. -/
theorem runChannel_history (w : ℕ) (th c : ℚ) :
    ∀ (inputs : List (ℚ × ℚ)) (s : ChannelState),
      (runChannel w th c s inputs).1.history = s.history ++ inputs.map Prod.fst
  | [], _ => by simp [runChannel]
  | (v, t) :: rest, s => by
    have ih := runChannel_history w th c rest
    rcases processChannel_spec w th c s v t with ⟨_, _, _, hp⟩ | ⟨_, hp⟩ <;>
      simp [runChannel, hp, ih]

/-- C2 counterexample: after 11 ingests with `window_size = 10` the
channel's history holds 11 values, not 10 — nothing is evicted. -/
theorem window_bound_counterexample :
    (runChannel 10 15 2 initChannel
      (List.replicate 11 ((1 : ℚ), (0 : ℚ)))).1.history.length = 11 ∧
    ¬ (runChannel 10 15 2 initChannel
      (List.replicate 11 ((1 : ℚ), (0 : ℚ)))).1.history.length = 10 := by
  have h := runChannel_history 10 15 2 (List.replicate 11 ((1 : ℚ), (0 : ℚ))) initChannel
  rw [h]
  simp [initChannel]

/-- C2 (amended): the history is unbounded — after ingesting `N` samples it
holds the initial history followed by all `N` values, so its length grows to
`N`, not `window_size`; the FIFO window bound holds only for the data the
baseline consumes, which is the suffix of the most recent `window_size`
values. -/
theorem history_unbounded (w : ℕ) (th c : ℚ) (inputs : List (ℚ × ℚ))
    (s : ChannelState) (values : List ℚ) :
    (runChannel w th c s inputs).1.history = s.history ++ inputs.map Prod.fst ∧
    (runChannel w th c s inputs).1.history.length = s.history.length + inputs.length ∧
    calculate_baseline values w = calculate_baseline (lastN w values) w ∧
    (lastN w values).length ≤ w := by
  refine ⟨runChannel_history w th c inputs s, ?_,
    (calculate_baseline_lastN values w).symm, ?_⟩
  · rw [runChannel_history w th c inputs s]
    simp
  · rw [length_lastN]
    omega

/-- C7 counterexample: with configuration `{window_size = 10, arming = 3,
threshold = 15, cooldown = 2}`, the run `[50,50,50,50,50,50,80]` at
timestamps `[0, 0.1, ..., 0.6]` never fires — in particular the 7th ingest
yields `noAction`, not `Fire` — because `last_trigger_time` starts at `0`
and `0.6 - 0 > 2.0` fails, although the 7th delta `180/7 > 15` does exceed
the threshold. -/
theorem scenario_counterexample :
    (runChannel 10 15 2 initChannel
        [(50, 0), (50, 1/10), (50, 2/10), (50, 3/10), (50, 4/10), (50, 5/10),
         (80, 6/10)]).2 =
      List.replicate 7 Decision.noAction ∧
    (15 : ℚ) < 80 - calculate_baseline [50, 50, 50, 50, 50, 50, 80] 10 := by
  constructor
  · norm_num [runChannel, processChannel, calculate_baseline, lastN, initChannel,
      List.replicate]
  · norm_num [calculate_baseline, lastN]

/-- C7 (amended): same configuration and values, with the timestamps shifted
past the cooldown (`[10, 10.1, ..., 10.6]`): the first three ingests yield
`noAction` and the 7th fires, with baseline `380/7 ≈ 54.3` — the mean of all
seven samples including the new one, not `≈ 50` — and delta
`180/7 ≈ 25.7 > 15`. -/
theorem scenario_fires_after_cooldown :
    (runChannel 10 15 2 initChannel
        [(50, 10), (50, 101/10), (50, 102/10), (50, 103/10), (50, 104/10),
         (50, 105/10), (80, 106/10)]).2 =
      [Decision.noAction, Decision.noAction, Decision.noAction, Decision.noAction,
       Decision.noAction, Decision.noAction,
       Decision.fire 80 (380/7) (180/7)] := by
  norm_num [runChannel, processChannel, calculate_baseline, lastN, initChannel]

/-- One bounded-History step agrees with one unbounded step whenever the two
states carry the same last-trigger time, the bounded history is the
`w`-suffix of the unbounded one, and `w` exceeds the arming bound 3. -/
theorem bounded_step_agrees (w : ℕ) (hw : 4 ≤ w) (th c : ℚ)
    (s sb : ChannelState) (v t : ℚ)
    (hh : sb.history = lastN w s.history) (hl : sb.lastTrigger = s.lastTrigger) :
    (boundedProcessChannel w th c sb v t).2 = (processChannel w th c s v t).2 ∧
    (boundedProcessChannel w th c sb v t).1.history =
      lastN w ((processChannel w th c s v t).1.history) ∧
    (boundedProcessChannel w th c sb v t).1.lastTrigger =
      (processChannel w th c s v t).1.lastTrigger := by
  have hb : lastN w (sb.history ++ [v]) = lastN w (s.history ++ [v]) := by
    rw [hh, lastN_append_lastN]
  have hbase : calculate_baseline (lastN w (s.history ++ [v])) w =
      calculate_baseline (s.history ++ [v]) w := calculate_baseline_lastN _ w
  have harm : (3 < (lastN w (s.history ++ [v])).length) ↔
      (3 < (s.history ++ [v]).length) := by
    rw [length_lastN]
    omega
  simp only [boundedProcessChannel, processChannel, hb, hl, hbase, harm]
  split_ifs with h1 h2 <;> exact ⟨rfl, rfl, rfl⟩

/-- Runs of the bounded-History model and of the source agree decision for
decision whenever the window size exceeds the arming bound. -/
theorem bounded_run_agrees (w : ℕ) (hw : 4 ≤ w) (th c : ℚ) :
    ∀ (inputs : List (ℚ × ℚ)) (s sb : ChannelState),
      sb.history = lastN w s.history → sb.lastTrigger = s.lastTrigger →
      (boundedRunChannel w th c sb inputs).2 = (runChannel w th c s inputs).2
  | [], _, _, _, _ => rfl
  | (v, t) :: rest, s, sb, hh, hl => by
    obtain ⟨hd, hh', hl'⟩ := bounded_step_agrees w hw th c s sb v t hh hl
    have ih := bounded_run_agrees w hw th c rest (processChannel w th c s v t).1
      (boundedProcessChannel w th c sb v t).1 hh' hl'
    simp [runChannel, boundedRunChannel, hd, ih]

/-- C10 (amended): only the most recent `window_size` values influence the
baseline, for every `window_size ≥ 1`; and whenever the window size strictly
exceeds the arming bound `min_history_before_arming = 3` — in particular for
the source's `window_size = 10` — the source's unbounded-history runs
produce exactly the decisions of the spec's bounded FIFO-window model.  (For
`window_size ≤ 3` the two can disagree, because the bounded model's capped
history may never satisfy the arming guard: see the counterexample.) -/
theorem code_refines_bounded_window (w : ℕ) (th c : ℚ)
    (values : List ℚ) (inputs : List (ℚ × ℚ)) (hw : 1 ≤ w) :
    calculate_baseline values w = calculate_baseline (lastN w values) w ∧
    (4 ≤ w →
      (runChannel w th c initChannel inputs).2 =
        (boundedRunChannel w th c initChannel inputs).2) := by
  refine ⟨(calculate_baseline_lastN values w).symm, fun h4 => ?_⟩
  exact (bounded_run_agrees w h4 th c inputs initChannel initChannel
    (by simp [initChannel, lastN]) rfl).symm

/-- Witness for `code_refines_bounded_window` at `w = 10`. -/
theorem code_refines_bounded_window_witness :
    calculate_baseline [1, 2] 10 = calculate_baseline (lastN 10 [1, 2]) 10 ∧
    (4 ≤ 10 →
      (runChannel 10 15 2 initChannel [(1, 0)]).2 =
        (boundedRunChannel 10 15 2 initChannel [(1, 0)]).2) :=
  code_refines_bounded_window 10 15 2 [1, 2] [(1, 0)] (by norm_num)

/-- C10 counterexample: with `window_size = 2 ≤ min_history_before_arming`
the source and the bounded-window model disagree on the decision trace — the
source arms on its unbounded 4-entry history and fires on the 4th ingest,
while the bounded model's history never exceeds 2 entries and stays silent. -/
theorem bounded_window_counterexample :
    (runChannel 2 15 2 initChannel
        [(0, 10), (0, 10), (0, 10), (100, 10)]).2.map isFire =
      [false, false, false, true] ∧
    (boundedRunChannel 2 15 2 initChannel
        [(0, 10), (0, 10), (0, 10), (100, 10)]).2.map isFire =
      [false, false, false, false] ∧
    (runChannel 2 15 2 initChannel [(0, 10), (0, 10), (0, 10), (100, 10)]).2 ≠
      (boundedRunChannel 2 15 2 initChannel [(0, 10), (0, 10), (0, 10), (100, 10)]).2 := by
  have h1 : (runChannel 2 15 2 initChannel
      [(0, 10), (0, 10), (0, 10), (100, 10)]).2.map isFire =
      [false, false, false, true] := by
    norm_num [runChannel, processChannel, calculate_baseline, lastN, initChannel, isFire]
  have h2 : (boundedRunChannel 2 15 2 initChannel
      [(0, 10), (0, 10), (0, 10), (100, 10)]).2.map isFire =
      [false, false, false, false] := by
    norm_num [boundedRunChannel, boundedProcessChannel, calculate_baseline, lastN,
      initChannel, isFire]
  refine ⟨h1, h2, fun h => ?_⟩
  rw [h, h2] at h1
  simp at h1

end SensorTrigger
